import Mathlib

/-!
Shallow embedding of the `algo-trading-battle-royale` strategy engine
(`python-strategy-engine/`): the `Signal` record and the agents
(`agents/trend_follower.py`, `agents/mean_reversion.py`, `agents/news_agent.py`,
`agents/hybrid_agent.py`) plus the orchestrator (`orchestrator/battle_manager.py`).
Python floats are modelled as rationals, Python dicts with optional keys as
structures of `Option` fields (`.get(k, d)` becomes `Option.getD`), and each
agent's mutable `self` state is passed explicitly.
-/

/-- Substring test (Python's `needle in hay`), defined on the character lists. -/
def charsInfix [BEq α] : List α → List α → Bool
  | xs, [] => xs.isEmpty
  | xs, y :: ys => xs.isPrefixOf (y :: ys) || charsInfix xs ys

/-- Python `needle in hay` on strings. -/
def strContains (needle hay : String) : Bool :=
  charsInfix needle.data hay.data

/-- Round to the nearest integer, halves to even — the rounding Python's
fixed-point format specifiers apply to the scaled value. -/
def roundHalfEven (q : ℚ) : ℤ :=
  let f : ℤ := q.floor
  let r : ℚ := q - f
  if r < 1/2 then f
  else if 1/2 < r then f + 1
  else if 2 ∣ f then f else f + 1

/-- Left-pad a digit string with zeros to width `w`. -/
def padZeros (w : Nat) (s : String) : String :=
  String.mk (List.replicate (w - s.length) '0') ++ s

/-- Python `format(q, '.Nf')` on a rational: fixed-point with `decimals`
fractional digits. -/
def fmtFixed (decimals : Nat) (q : ℚ) : String :=
  let scaled : ℤ := roundHalfEven (q * ((10 : ℚ) ^ decimals))
  if decimals = 0 then toString scaled
  else
    let sign := if scaled < 0 then "-" else ""
    let n := scaled.natAbs
    sign ++ toString (n / 10 ^ decimals) ++ "." ++ padZeros decimals (toString (n % 10 ^ decimals))

/-- Python `format(q, '.0%')`. -/
def fmtPercent0 (q : ℚ) : String := fmtFixed 0 (q * 100) ++ "%"

/-- Python `format(q, '.1%')`. -/
def fmtPercent1 (q : ℚ) : String := fmtFixed 1 (q * 100) ++ "%"

/-- Python `l[-k:]`: the last `k` elements; `l[-0:]` is the whole list. -/
def lastSlice (k : Nat) (l : List ℚ) : List ℚ :=
  if k = 0 then l else l.drop (l.length - k)

/-- `np.mean` on a rational list (sum divided by length; only used on
nonempty windows, as in the source). -/
def npMean (l : List ℚ) : ℚ := l.sum / l.length

/-- The `Signal` value an agent assembles on its success path.  The seven
fields below are the ones declared by the `Signal` dataclass in
`agents/base_agent.py`; the call sites additionally pass a `price` keyword
that the dataclass does not declare — that mismatch is analysed separately
via `signalDataclassFields` / `agentSignalCallKwargs`. -/
structure Signal where
  timestamp : ℚ
  symbol : String
  action : String
  confidence : ℚ
  size : ℚ
  reason : String
  agent_name : String
deriving Repr, DecidableEq

/-- Field names declared by the `Signal` dataclass (`agents/base_agent.py`). -/
def signalDataclassFields : List String :=
  ["timestamp", "symbol", "action", "confidence", "size", "reason", "agent_name"]

/-- Keyword arguments every agent passes when constructing a `Signal`
(e.g. `agents/trend_follower.py` line 29, `agents/hybrid_agent.py` line 240). -/
def agentSignalCallKwargs : List String :=
  ["timestamp", "symbol", "action", "confidence", "size", "reason", "agent_name", "price"]

/-- A Python dataclass constructor call raises `TypeError` exactly when some
keyword argument is not a declared field. -/
def pyDataclassCallRaisesTypeError (fields kwargs : List String) : Bool :=
  kwargs.any (fun k => !(fields.contains k))

/-- Market-data dict: the keys the agents read, each possibly absent. -/
structure MarketData where
  timestamp : Option ℚ := none
  symbol : Option String := none
  price : Option ℚ := none
deriving Repr

/-! ### Indicator agents (`trend_follower.py`, `mean_reversion.py`) -/

structure TrendConfig where
  name : String := "Trend Follower"
  fast_period : Nat := 10
  slow_period : Nat := 30
deriving Repr

structure MeanRevConfig where
  name : String := "Mean Reversion"
  period : Nat := 20
  std_dev : ℚ := 2
deriving Repr

/-- The per-agent `self.price_history` list. -/
structure PriceHistoryState where
  price_history : List ℚ := []
deriving Repr

/-- Fast-window mean used by `TrendFollower.generate_signal`. -/
def trendFastMA (cfg : TrendConfig) (history : List ℚ) : ℚ :=
  npMean (lastSlice cfg.fast_period history)

/-- Slow-window mean used by `TrendFollower.generate_signal`. -/
def trendSlowMA (cfg : TrendConfig) (history : List ℚ) : ℚ :=
  npMean (lastSlice cfg.slow_period history)

/-- `TrendFollower.generate_signal` (`agents/trend_follower.py` lines 11-38).
Returns the `Signal` value assembled on the success path together with the
updated price history. -/
def trendFollower_generate_signal (cfg : TrendConfig) (md : MarketData)
    (st : PriceHistoryState) : Option Signal × PriceHistoryState :=
  match md.price with
  | none => (none, st)
  | some price =>
    let history := st.price_history ++ [price]
    if history.length < cfg.slow_period then (none, ⟨history⟩)
    else
      let fast_ma := trendFastMA cfg history
      let slow_ma := trendSlowMA cfg history
      let ac : String × ℚ :=
        if slow_ma < fast_ma then ("BUY", min (1/2 + (fast_ma - slow_ma) / slow_ma) (95/100))
        else if fast_ma < slow_ma then ("SELL", min (1/2 + (slow_ma - fast_ma) / slow_ma) (95/100))
        else ("HOLD", 1/2)
      (some { timestamp := md.timestamp.getD 0
              symbol := md.symbol.getD "UNKNOWN"
              action := ac.1
              confidence := ac.2
              size := 100 * ac.2
              reason := "MA crossover: fast(" ++ fmtFixed 2 fast_ma ++ "), slow(" ++ fmtFixed 2 slow_ma ++ ")"
              agent_name := cfg.name }, ⟨history⟩)

/-- `MeanReversion.generate_signal` (`agents/mean_reversion.py` lines 11-31).
`np.std` returns an irrational square root, so the standard deviation is taken
as a parameter `std`; every claim about this agent is independent of it. -/
def meanReversion_generate_signal (std : List ℚ → ℚ) (cfg : MeanRevConfig)
    (md : MarketData) (st : PriceHistoryState) : Option Signal × PriceHistoryState :=
  match md.price with
  | none => (none, st)
  | some price =>
    let history := st.price_history ++ [price]
    if history.length < cfg.period then (none, ⟨history⟩)
    else
      let window := lastSlice cfg.period history
      let ma := npMean window
      let sd := std window
      let upper := ma + cfg.std_dev * sd
      let lower := ma - cfg.std_dev * sd
      let ac : String × ℚ :=
        if price ≤ lower then ("BUY", min (6/10 + |price - lower| / ma) (95/100))
        else if upper ≤ price then ("SELL", min (6/10 + |price - upper| / ma) (95/100))
        else ("HOLD", 1/2)
      (some { timestamp := md.timestamp.getD 0
              symbol := md.symbol.getD "UNKNOWN"
              action := ac.1
              confidence := ac.2
              size := 100 * ac.2
              reason := "Bollinger Bands: lower(" ++ fmtFixed 2 lower ++ "), upper(" ++ fmtFixed 2 upper ++ ")"
              agent_name := cfg.name }, ⟨history⟩)

/-! ### Event snapshot (`event_data` dict) -/

/-- One entry of the `polymarket` sub-dict; `yes_probability` is read with
default `0.5`. -/
structure PolyMarketEntry where
  yes_probability : Option ℚ := none
deriving Repr

/-- The `stablecoin_supply` sub-dict; `change_24h_usd` is read with default 0. -/
structure StablecoinSupply where
  change_24h_usd : Option ℚ := none
deriving Repr

/-- The `onchain` sub-dict of the event snapshot. -/
structure OnchainData where
  total_exchange_inflows : Option ℚ := none
  stablecoin_supply : Option StablecoinSupply := none
  total_defi_tvl : Option ℚ := none
deriving Repr

/-- One news event.  `source` and `title` are accessed directly by the scan
(`event['source']`, `event['title']`), so they are required fields; the rest
are read with `.get` defaults. -/
structure NewsEvent where
  source : String
  title : String
  impact_score : Option ℚ := none
  sentiment : Option String := none
  matched_keywords : List String := []
deriving Repr, DecidableEq

/-- The `news_events` sub-dict (its `events` key is read with default `[]`). -/
structure NewsData where
  events : List NewsEvent := []
deriving Repr

/-- The `event_data` dict: each key possibly absent. -/
structure EventData where
  polymarket : Option (List (String × PolyMarketEntry)) := none
  onchain : Option OnchainData := none
  news_events : Option NewsData := none
deriving Repr

/-! ### News agents (`agents/news_agent.py`) and the shared best-event scan -/

/-- Dedup identity of a news event: `f"{event['source']}_{event['title'][:50]}"`. -/
def eventId (e : NewsEvent) : String := e.source ++ "_" ++ (e.title.take 50)

/-- Impact used by the scan: `NewsAgent` boosts Fed events by `fed_multiplier`;
`HybridAgent._check_news_signal` applies no boost, i.e. multiplier 1. -/
def boostedImpact (fedMult : ℚ) (e : NewsEvent) : ℚ :=
  let impact := e.impact_score.getD 0
  if e.source == "fed" then impact * fedMult else impact

/-- Accumulator of the best-event scan loop: current best event, its (boosted)
score, and the seen-event set (Python mutates `self.seen_events` in place). -/
structure ScanState where
  best : Option NewsEvent
  bestScore : ℚ
  seen : List String
deriving Repr

/-- One iteration of the best-event loop (`news_agent.py` lines 71-87,
`hybrid_agent.py` lines 148-157): skip seen events; an unseen event whose
boosted impact beats the running best and meets the threshold becomes the
best and is added to the seen set immediately. -/
def scanStep (θ fedMult : ℚ) (st : ScanState) (e : NewsEvent) : ScanState :=
  let id := eventId e
  if st.seen.contains id then st
  else
    let impact := boostedImpact fedMult e
    if st.bestScore < impact ∧ θ ≤ impact then
      { best := some e, bestScore := impact, seen := id :: st.seen }
    else st

/-- The whole best-event scan over the event list. -/
def newsScanList (θ fedMult : ℚ) (seen : List String) (events : List NewsEvent) : ScanState :=
  events.foldl (scanStep θ fedMult) { best := none, bestScore := 0, seen := seen }

structure NewsAgentConfig where
  name : String := "NewsAgent"
  impact_threshold : ℚ := 2
  fed_multiplier : ℚ := 3/2
deriving Repr

/-- The `self.seen_events` set of `NewsAgent`. -/
structure NewsAgentState where
  seen_events : List String := []
deriving Repr

/-- Action/confidence choice of `NewsAgent.generate_signal` (lines 93-115)
once a best event is found. -/
def newsAgentAction (best : NewsEvent) (best_score : ℚ) : Option (String × ℚ) :=
  let sentiment := best.sentiment.getD "neutral"
  if sentiment == "bullish" then some ("BUY", min (88/100) (6/10 + best_score / 10))
  else if sentiment == "bearish" then some ("SELL", min (88/100) (6/10 + best_score / 10))
  else if best.source == "fed" then some ("SELL", 65/100)
  else if best.source == "sec" && strContains "etf" best.title.toLower then some ("BUY", 7/10)
  else none

/-- Reason string of `NewsAgent.generate_signal` (lines 117-119). -/
def newsAgentReason (best : NewsEvent) : String :=
  best.source.toUpper ++ " event (impact: " ++ fmtFixed 1 (best.impact_score.getD 0) ++ "): \"" ++
  best.title.take 80 ++ "...\" | Sentiment: " ++ best.sentiment.getD "neutral" ++
  " | Keywords: " ++ String.intercalate ", " best.matched_keywords

/-- `NewsAgent.generate_signal` (`agents/news_agent.py` lines 37-130). -/
def newsAgent_generate_signal (cfg : NewsAgentConfig) (md : MarketData)
    (ed : Option EventData) (st : NewsAgentState) : Option Signal × NewsAgentState :=
  match ed with
  | none => (none, st)
  | some ed =>
    match ed.news_events with
    | none => (none, st)
    | some news =>
      if news.events.isEmpty then (none, st)
      else
        let scan := newsScanList cfg.impact_threshold cfg.fed_multiplier st.seen_events news.events
        match scan.best with
        | none => (none, ⟨scan.seen⟩)
        | some best =>
          match newsAgentAction best scan.bestScore with
          | none => (none, ⟨scan.seen⟩)
          | some ac =>
            (some { timestamp := md.timestamp.getD 0
                    symbol := md.symbol.getD "BTC"
                    action := ac.1
                    confidence := ac.2
                    size := 100
                    reason := newsAgentReason best
                    agent_name := cfg.name }, ⟨scan.seen⟩)

/-- Loop body of `FedNewsAgent.generate_signal` (lines 154-200): the first
unseen Fed event that matches a keyword/sentiment branch yields the signal;
non-matching unseen Fed events are remembered and skipped. -/
def fedNewsLoop (md : MarketData) (name : String) (st : List String) :
    List NewsEvent → Option Signal × List String
  | [] => (none, st)
  | e :: rest =>
    if e.source != "fed" then fedNewsLoop md name st rest
    else
      let id := "fed_" ++ e.title.take 50
      if st.contains id then fedNewsLoop md name st rest
      else
        let st' := id :: st
        let title := e.title.toLower
        let sentiment := e.sentiment.getD "neutral"
        let acr : Option (String × ℚ × String) :=
          if strContains "hike" title || strContains "hawkish" title then
            some ("SELL", 82/100, "Fed hawkish signal: \"" ++ e.title ++ "\"")
          else if strContains "cut" title || strContains "dovish" title then
            some ("BUY", 82/100, "Fed dovish signal: \"" ++ e.title ++ "\"")
          else if strContains "pause" title then
            some ("BUY", 72/100, "Fed pause signal: \"" ++ e.title ++ "\"")
          else if sentiment == "bullish" then
            some ("BUY", 75/100, "Fed bullish announcement: \"" ++ e.title ++ "\"")
          else if sentiment == "bearish" then
            some ("SELL", 75/100, "Fed bearish announcement: \"" ++ e.title ++ "\"")
          else none
        match acr with
        | none => fedNewsLoop md name st' rest
        | some acr =>
          (some { timestamp := md.timestamp.getD 0
                  symbol := md.symbol.getD "BTC"
                  action := acr.1
                  confidence := acr.2.1
                  size := 100
                  reason := acr.2.2
                  agent_name := name }, st')

/-- `FedNewsAgent.generate_signal` (`agents/news_agent.py` lines 143-202). -/
def fedNewsAgent_generate_signal (name : String) (md : MarketData)
    (ed : Option EventData) (st : List String) : Option Signal × List String :=
  match ed with
  | none => (none, st)
  | some ed =>
    match ed.news_events with
    | none => (none, st)
    | some news => fedNewsLoop md name st news.events

/-- Loop body of `SECAgent.generate_signal` (lines 224-274). -/
def secLoop (md : MarketData) (name : String) (st : List String) :
    List NewsEvent → Option Signal × List String
  | [] => (none, st)
  | e :: rest =>
    if e.source != "sec" then secLoop md name st rest
    else
      let id := "sec_" ++ e.title.take 50
      if st.contains id then secLoop md name st rest
      else
        let st' := id :: st
        let title := e.title.toLower
        let keywords := e.matched_keywords
        let acr : Option (String × ℚ × String) :=
          if keywords.contains "etf" && (strContains "approve" title || strContains "approval" title) then
            some ("BUY", 92/100, "SEC ETF APPROVAL: \"" ++ e.title ++ "\"")
          else if keywords.contains "etf" && (strContains "reject" title || strContains "denial" title) then
            some ("SELL", 85/100, "SEC ETF REJECTION: \"" ++ e.title ++ "\"")
          else if keywords.contains "enforcement" || keywords.contains "fraud" then
            some ("SELL", 73/100, "SEC enforcement action: \"" ++ e.title ++ "\"")
          else none
        match acr with
        | none => secLoop md name st' rest
        | some acr =>
          (some { timestamp := md.timestamp.getD 0
                  symbol := md.symbol.getD "BTC"
                  action := acr.1
                  confidence := acr.2.1
                  size := 100
                  reason := acr.2.2
                  agent_name := name }, st')

/-- `SECAgent.generate_signal` (`agents/news_agent.py` lines 214-276). -/
def secAgent_generate_signal (name : String) (md : MarketData)
    (ed : Option EventData) (st : List String) : Option Signal × List String :=
  match ed with
  | none => (none, st)
  | some ed =>
    match ed.news_events with
    | none => (none, st)
    | some news => secLoop md name st news.events

/-! ### Hybrid multi-source agent (`agents/hybrid_agent.py`) -/

structure HybridConfig where
  name : String := "HybridAgent"
  confirmation_threshold : Nat := 2
  polymarket_threshold : ℚ := 65/100
  onchain_threshold : ℚ := 300000000
  news_impact_threshold : ℚ := 2
deriving Repr

/-- Mutable state of `HybridAgent` (`prev_poly_prob` is written nowhere, so it
is omitted). -/
structure HybridState where
  prev_onchain_flows : Option ℚ := none
  seen_news : List String := []
deriving Repr

/-- Inner key loop of `HybridAgent._check_polymarket_signal`: for each key
present in the `polymarket` dict, probability above the threshold yields
`hi`, below `1 - threshold` yields `lo`, otherwise the next key is tried. -/
def checkPolyKeys (θ : ℚ) (poly : List (String × PolyMarketEntry)) (hi lo : String) :
    List String → Option String
  | [] => none
  | k :: ks =>
    match poly.lookup k with
    | none => checkPolyKeys θ poly hi lo ks
    | some entry =>
      let prob := entry.yes_probability.getD (1/2)
      if θ < prob then some hi
      else if prob < 1 - θ then some lo
      else checkPolyKeys θ poly hi lo ks

/-- `HybridAgent._check_polymarket_signal` (lines 53-91): BTC-price markets
are bullish above threshold; Fed-hike and recession markets are bearish
above threshold. -/
def hybrid_check_polymarket_signal (cfg : HybridConfig) (ed : EventData) : Option String :=
  match ed.polymarket with
  | none => none
  | some poly =>
    let θ := cfg.polymarket_threshold
    match checkPolyKeys θ poly "BUY" "SELL" ["btc_100k", "btc_above_100k", "bitcoin_100k"] with
    | some v => some v
    | none =>
      match checkPolyKeys θ poly "SELL" "BUY" ["fed_hike", "fed_rate_hike", "rate_hike"] with
      | some v => some v
      | none => checkPolyKeys θ poly "SELL" "BUY" ["recession", "us_recession", "recession_2025"]

/-- `HybridAgent._check_onchain_signal` (lines 93-127).  Returns the vote and
the updated `prev_onchain_flows` (Python assigns it only on the fall-through
path; `if self.prev_onchain_flows` is Python truthiness, so `None` and `0`
both fail it). -/
def hybrid_check_onchain_signal (cfg : HybridConfig) (ed : EventData)
    (prev : Option ℚ) : Option String × Option ℚ :=
  match ed.onchain with
  | none => (none, prev)
  | some oc =>
    let total_inflows := oc.total_exchange_inflows.getD 0
    if cfg.onchain_threshold < total_inflows then (some "BUY", prev)
    else
      let stablecoin_change := ((oc.stablecoin_supply.getD {}).change_24h_usd).getD 0
      if (400000000 : ℚ) < stablecoin_change then (some "BUY", prev)
      else if stablecoin_change < -300000000 then (some "SELL", prev)
      else
        let defi_tvl := oc.total_defi_tvl.getD 0
        match prev with
        | none => (none, some defi_tvl)
        | some p =>
          if p ≠ 0 ∧ 0 < defi_tvl then
            let tvl_change_pct := (defi_tvl - p) / p * 100
            if tvl_change_pct < -5 then (some "SELL", prev)
            else if 5 < tvl_change_pct then (some "BUY", prev)
            else (none, some defi_tvl)
          else (none, some defi_tvl)

/-- Sentiment/keyword mapping of `HybridAgent._check_news_signal`
(lines 162-185) once a best event is found. -/
def hybridNewsAction (best : NewsEvent) : Option String :=
  let sentiment := best.sentiment.getD "neutral"
  if sentiment == "bullish" then some "BUY"
  else if sentiment == "bearish" then some "SELL"
  else
    let title := best.title.toLower
    if best.source == "fed" && (strContains "hike" title || strContains "hawkish" title) then some "SELL"
    else if best.source == "fed" && (strContains "cut" title || strContains "dovish" title) then some "BUY"
    else if best.source == "sec" && strContains "etf" title && strContains "approve" title then some "BUY"
    else if best.source == "sec" && strContains "etf" title && strContains "reject" title then some "SELL"
    else none

/-- `HybridAgent._check_news_signal` (lines 129-185): the same best-event scan
as `NewsAgent` but with no Fed boost (multiplier 1); returns the vote and the
updated seen set. -/
def hybrid_check_news_signal (cfg : HybridConfig) (ed : EventData)
    (seen : List String) : Option String × List String :=
  match ed.news_events with
  | none => (none, seen)
  | some news =>
    if news.events.isEmpty then (none, seen)
    else
      let scan := newsScanList cfg.news_impact_threshold 1 seen news.events
      match scan.best with
      | none => (none, scan.seen)
      | some best => (hybridNewsAction best, scan.seen)

/-- The list of non-null per-source votes collected by
`HybridAgent.generate_signal` line 203. -/
def hybridSourceVotes (cfg : HybridConfig) (ed : EventData) (st : HybridState) : List String :=
  List.filterMap id
    [hybrid_check_polymarket_signal cfg ed,
     (hybrid_check_onchain_signal cfg ed st.prev_onchain_flows).1,
     (hybrid_check_news_signal cfg ed st.seen_news).1]

/-- Vote list over an optional event snapshot (`if not event_data` short-circuits
before any source is consulted). -/
def hybridVotesOpt (cfg : HybridConfig) (ed : Option EventData) (st : HybridState) : List String :=
  match ed with
  | none => []
  | some ed => hybridSourceVotes cfg ed st

/-- Reason string of `HybridAgent.generate_signal` (lines 224-238). -/
def hybridReason (poly onchain news : Option String) (agreement confirmation_count : Nat)
    (action : String) (confidence : ℚ) : String :=
  let source_details :=
    (match poly with | some v => ["Polymarket: " ++ v] | none => []) ++
    (match onchain with | some v => ["On-chain: " ++ v] | none => []) ++
    (match news with | some v => ["News: " ++ v] | none => [])
  toString agreement ++ "/" ++ toString confirmation_count ++ " sources confirm " ++ action ++
  " | " ++ String.intercalate " + " source_details ++ " | Multi-source conviction: " ++
  fmtPercent0 confidence

/-- `HybridAgent.generate_signal` (lines 187-249). -/
def hybrid_generate_signal (cfg : HybridConfig) (md : MarketData)
    (ed : Option EventData) (st : HybridState) : Option Signal × HybridState :=
  match ed with
  | none => (none, st)
  | some ed =>
    let poly_signal := hybrid_check_polymarket_signal cfg ed
    let oc := hybrid_check_onchain_signal cfg ed st.prev_onchain_flows
    let ns := hybrid_check_news_signal cfg ed st.seen_news
    let st' : HybridState := { prev_onchain_flows := oc.2, seen_news := ns.2 }
    let signals := List.filterMap id [poly_signal, oc.1, ns.1]
    if signals.length < cfg.confirmation_threshold then (none, st')
    else
      let buy_votes := signals.countP (· == "BUY")
      let sell_votes := signals.countP (· == "SELL")
      if cfg.confirmation_threshold ≤ buy_votes then
        let confidence := 7/10 + (buy_votes : ℚ) * (7/100)
        (some { timestamp := md.timestamp.getD 0
                symbol := md.symbol.getD "BTC"
                action := "BUY"
                confidence := confidence
                size := 100
                reason := hybridReason poly_signal oc.1 ns.1 buy_votes signals.length "BUY" confidence
                agent_name := cfg.name }, st')
      else if cfg.confirmation_threshold ≤ sell_votes then
        let confidence := 7/10 + (sell_votes : ℚ) * (7/100)
        (some { timestamp := md.timestamp.getD 0
                symbol := md.symbol.getD "BTC"
                action := "SELL"
                confidence := confidence
                size := 100
                reason := hybridReason poly_signal oc.1 ns.1 sell_votes signals.length "SELL" confidence
                agent_name := cfg.name }, st')
      else (none, st')

/-- Configuration of the inner `HybridAgent` built by `StrictHybridAgent.__init__`:
`HybridAgent(name=name, confirmation_threshold=3)`, every other parameter at
its default. -/
def strictHybridConfig (name : String) : HybridConfig :=
  { name := name, confirmation_threshold := 3 }

/-- `StrictHybridAgent.generate_signal` (lines 263-268): pure delegation to the
inner 3-of-3 `HybridAgent`. -/
def strictHybrid_generate_signal (name : String) (md : MarketData)
    (ed : Option EventData) (st : HybridState) : Option Signal × HybridState :=
  hybrid_generate_signal (strictHybridConfig name) md ed st

/-! ### Battle manager (`orchestrator/battle_manager.py`) -/

/-- The per-agent data `_select_winner` reads from the agent objects. -/
structure AgentPerf where
  name : String
  win_rate : ℚ
deriving Repr

/-- `BattleManager` state: agent list, `current_epoch`, and the `epoch_wins`
dict (keys in agent order). -/
structure BattleManager where
  agents : List AgentPerf
  current_epoch : Nat
  epoch_wins : List (String × Nat)
deriving Repr

/-- `next(a for a in self.agents if a.name == signal.agent_name)`; Python
raises `StopIteration` when no agent matches, modelled as `none`. -/
def findAgent (agents : List AgentPerf) (nm : String) : Option AgentPerf :=
  agents.find? (fun a => a.name == nm)

/-- The exploitation score of one candidate (`battle_manager.py` lines 100-104):
`confidence*0.5 + win_rate*0.3 + epoch_win_bonus*0.2`, where the epoch-win
bonus is `epoch_wins[name] / max(current_epoch, 1)`.  `none` models the
`StopIteration`/`KeyError` Python would raise on an unknown agent name. -/
def selectionScore (m : BattleManager) (s : Signal) : Option ℚ :=
  match findAgent m.agents s.agent_name, List.lookup s.agent_name m.epoch_wins with
  | some agent, some w =>
    some (s.confidence * (1/2) + agent.win_rate * (3/10) +
      ((w : ℚ) / max (m.current_epoch : ℚ) 1) * (1/5))
  | _, _ => none

/-- Python `max(l, key=lambda x: x[1])` starting from a first element: later
elements replace the running best only when strictly greater, so the first
maximal element wins. -/
def pickMaxBySnd : Signal × ℚ → List (Signal × ℚ) → Signal × ℚ
  | best, [] => best
  | best, x :: xs => pickMaxBySnd (if best.2 < x.2 then x else best) xs

/-- The `signal_scores` list built by the exploitation branch (`none` models
the exception Python would raise while scoring an unknown agent name). -/
def scoredList (m : BattleManager) : List Signal → Option (List (Signal × ℚ))
  | [] => some []
  | s :: rest =>
    match selectionScore m s, scoredList m rest with
    | some q, some tail => some ((s, q) :: tail)
    | _, _ => none

/-- Exploitation branch of `BattleManager._select_winner` (lines 95-109):
score every candidate, then take the maximum, first occurrence winning. -/
def select_winner_exploit (m : BattleManager) (signals : List Signal) : Option Signal :=
  match scoredList m signals with
  | none => none
  | some [] => none
  | some (p :: ps) => some (pickMaxBySnd p ps).1

/-- `BattleManager._select_winner` (lines 87-109).  The epsilon-greedy coin
flip and the uniform choice are injected as `explore` and `ridx`. -/
def select_winner (m : BattleManager) (signals : List Signal)
    (explore : Bool) (ridx : Nat) : Option Signal :=
  if explore then signals.get? ridx
  else select_winner_exploit m signals

/-- Increment the `epoch_wins` entry of `nm` (Python `dict[nm] += 1`; a
missing key would raise `KeyError` and is modelled as a no-op, which never
occurs for signals produced by the manager's own agents). -/
def bumpWins : List (String × Nat) → String → List (String × Nat)
  | [], _ => []
  | (k, v) :: rest, nm => if k == nm then (k, v + 1) :: rest else (k, v) :: bumpWins rest nm

/-- Inputs of one `run_battle` round: the per-agent `generate_signal` results
and the two random draws. -/
structure RoundInput where
  agentOutputs : List (Option Signal)
  explore : Bool
  ridx : Nat

/-- `BattleManager.run_battle` (lines 39-85) restricted to its state effects:
increment `current_epoch` first; collect non-`None` non-HOLD signals; if any,
select a winner (with the already-incremented epoch) and credit its agent. -/
def run_battle (m : BattleManager) (r : RoundInput) : BattleManager × Option Signal :=
  let m1 : BattleManager := { m with current_epoch := m.current_epoch + 1 }
  let signals := (r.agentOutputs.filterMap id).filter (fun s => !(s.action == "HOLD"))
  if signals.isEmpty then (m1, none)
  else
    match select_winner m1 signals r.explore r.ridx with
    | none => (m1, none)
    | some w => ({ m1 with epoch_wins := bumpWins m1.epoch_wins w.agent_name }, some w)

/-- A freshly constructed manager (`BattleManager.__init__`): epoch 0 and a
zero `epoch_wins` entry per agent. -/
def initManager (agents : List AgentPerf) : BattleManager :=
  { agents := agents, current_epoch := 0, epoch_wins := agents.map (fun a => (a.name, 0)) }

/-- Run a sequence of rounds. -/
def run_battles (m : BattleManager) (rs : List RoundInput) : BattleManager :=
  rs.foldl (fun m r => (run_battle m r).1) m

/-- Sum of all agents' epoch-win counters. -/
def winsSum (m : BattleManager) : Nat := (m.epoch_wins.map Prod.snd).sum

/-- `BattleManager._generate_rule_based_explanation` (lines 195-206): the
deterministic fallback explanation template. -/
def generate_rule_based_explanation (winner : Signal) (all_signals : List Signal)
    (md : MarketData) : String :=
  "The " ++ winner.agent_name ++ " agent secured victory with " ++
  fmtPercent0 winner.confidence ++ " confidence. " ++
  "Strategy: " ++ winner.reason ++ ". " ++
  "Market conditions: Price $" ++ fmtFixed 2 (md.price.getD 0) ++ ", " ++
  "competing against " ++ toString ((all_signals.length : ℤ) - 1) ++ " other strategies. " ++
  "Expected outcome: " ++ winner.action ++ " " ++ fmtFixed 0 winner.size ++ " shares."

/-- The full performance stats of one agent as used by
`BattleManager._format_agent_history` (lines 180-193); the fallback
explanation never reads them. -/
structure AgentStats where
  pnl : ℚ
  win_rate : ℚ
  total_trades : Nat
  epoch_wins : Nat
deriving Repr

/-- The performance-summary block `_format_agent_history` renders (Gemini
prompt only; the Sharpe line is omitted since its square root is irrational). -/
def format_agent_history_lines (stats : AgentStats) : List String :=
  ["- Total PnL: $" ++ fmtFixed 2 stats.pnl,
   "- Win Rate: " ++ fmtPercent1 stats.win_rate,
   "- Total Trades: " ++ toString stats.total_trades,
   "- Epochs Won: " ++ toString stats.epoch_wins]

/-! ### Helper lemmas on the hybrid fusion policy -/

/-- At most three sources can vote. -/
theorem hybridSourceVotes_length_le (cfg : HybridConfig) (ed : EventData) (st : HybridState) :
    (hybridSourceVotes cfg ed st).length ≤ 3 := by
  have h := List.length_filterMap_le (id : Option String → Option String)
    [hybrid_check_polymarket_signal cfg ed,
     (hybrid_check_onchain_signal cfg ed st.prev_onchain_flows).1,
     (hybrid_check_news_signal cfg ed st.seen_news).1]
  simpa [hybridSourceVotes] using h

theorem hybrid_generate_eq (cfg : HybridConfig) (md : MarketData) (ed : EventData)
    (st : HybridState) :
    hybrid_generate_signal cfg md (some ed) st =
      (let poly_signal := hybrid_check_polymarket_signal cfg ed
       let oc := hybrid_check_onchain_signal cfg ed st.prev_onchain_flows
       let ns := hybrid_check_news_signal cfg ed st.seen_news
       let st' : HybridState := { prev_onchain_flows := oc.2, seen_news := ns.2 }
       let signals := hybridSourceVotes cfg ed st
       if signals.length < cfg.confirmation_threshold then (none, st')
       else
         let buy_votes := signals.countP (· == "BUY")
         let sell_votes := signals.countP (· == "SELL")
         if cfg.confirmation_threshold ≤ buy_votes then
           let confidence := 7/10 + (buy_votes : ℚ) * (7/100)
           (some { timestamp := md.timestamp.getD 0
                   symbol := md.symbol.getD "BTC"
                   action := "BUY"
                   confidence := confidence
                   size := 100
                   reason := hybridReason poly_signal oc.1 ns.1 buy_votes signals.length "BUY" confidence
                   agent_name := cfg.name }, st')
         else if cfg.confirmation_threshold ≤ sell_votes then
           let confidence := 7/10 + (sell_votes : ℚ) * (7/100)
           (some { timestamp := md.timestamp.getD 0
                   symbol := md.symbol.getD "BTC"
                   action := "SELL"
                   confidence := confidence
                   size := 100
                   reason := hybridReason poly_signal oc.1 ns.1 sell_votes signals.length "SELL" confidence
                   agent_name := cfg.name }, st')
         else (none, st')) := by
  rfl

theorem hybrid_emit_buy (cfg : HybridConfig) (md : MarketData) (ed : EventData)
    (st : HybridState)
    (h1 : cfg.confirmation_threshold ≤ (hybridSourceVotes cfg ed st).length)
    (hb : cfg.confirmation_threshold ≤ (hybridSourceVotes cfg ed st).countP (· == "BUY")) :
    (hybrid_generate_signal cfg md (some ed) st).1.map Signal.action = some "BUY" ∧
    (hybrid_generate_signal cfg md (some ed) st).1.map Signal.confidence =
      some (7/10 + ((hybridSourceVotes cfg ed st).countP (· == "BUY") : ℚ) * (7/100)) := by
  have hnot : ¬ ((hybridSourceVotes cfg ed st).length < cfg.confirmation_threshold) :=
    Nat.not_lt.mpr h1
  rw [hybrid_generate_eq]
  simp only [if_neg hnot, if_pos hb, Option.map_some']
  exact ⟨trivial, trivial⟩

theorem hybrid_emit_sell (cfg : HybridConfig) (md : MarketData) (ed : EventData)
    (st : HybridState)
    (h1 : cfg.confirmation_threshold ≤ (hybridSourceVotes cfg ed st).length)
    (hb : ¬ cfg.confirmation_threshold ≤ (hybridSourceVotes cfg ed st).countP (· == "BUY"))
    (hs : cfg.confirmation_threshold ≤ (hybridSourceVotes cfg ed st).countP (· == "SELL")) :
    (hybrid_generate_signal cfg md (some ed) st).1.map Signal.action = some "SELL" ∧
    (hybrid_generate_signal cfg md (some ed) st).1.map Signal.confidence =
      some (7/10 + ((hybridSourceVotes cfg ed st).countP (· == "SELL") : ℚ) * (7/100)) := by
  have hnot : ¬ ((hybridSourceVotes cfg ed st).length < cfg.confirmation_threshold) :=
    Nat.not_lt.mpr h1
  rw [hybrid_generate_eq]
  simp only [if_neg hnot, if_neg hb, if_pos hs, Option.map_some']
  exact ⟨trivial, trivial⟩

/-- C1: for the hybrid fusion agent, whenever at least `confirmation_threshold`
sources vote and some direction reaches at least that many votes, the emitted
signal's action is BUY if the BUY vote count reaches the threshold and SELL
otherwise, its confidence is `0.70 + 0.07 ×` the number of agreeing votes, and
that confidence never exceeds 1. -/
theorem hybrid_fusion_action_and_confidence (cfg : HybridConfig) (md : MarketData)
    (ed : EventData) (st : HybridState)
    (h1 : cfg.confirmation_threshold ≤ (hybridSourceVotes cfg ed st).length)
    (h2 : cfg.confirmation_threshold ≤ (hybridSourceVotes cfg ed st).countP (· == "BUY") ∨
          cfg.confirmation_threshold ≤ (hybridSourceVotes cfg ed st).countP (· == "SELL")) :
    ((hybrid_generate_signal cfg md (some ed) st).1.map Signal.action =
      some (if cfg.confirmation_threshold ≤ (hybridSourceVotes cfg ed st).countP (· == "BUY")
            then "BUY" else "SELL")) ∧
    ((hybrid_generate_signal cfg md (some ed) st).1.map Signal.confidence =
      some (7/10 + ((if cfg.confirmation_threshold ≤ (hybridSourceVotes cfg ed st).countP (· == "BUY")
            then (hybridSourceVotes cfg ed st).countP (· == "BUY")
            else (hybridSourceVotes cfg ed st).countP (· == "SELL")) : ℚ) * (7/100))) ∧
    (∀ c : ℚ, (hybrid_generate_signal cfg md (some ed) st).1.map Signal.confidence = some c →
      c ≤ 1) := by
  have hcap : ∀ k : Nat, k ≤ 3 → (7/10 : ℚ) + (k : ℚ) * (7/100) ≤ 1 := by
    intro k hk
    have hk' : (k : ℚ) ≤ 3 := by exact_mod_cast hk
    nlinarith
  have hb3 : (hybridSourceVotes cfg ed st).countP (· == "BUY") ≤ 3 :=
    le_trans (List.countP_le_length _) (hybridSourceVotes_length_le cfg ed st)
  have hs3 : (hybridSourceVotes cfg ed st).countP (· == "SELL") ≤ 3 :=
    le_trans (List.countP_le_length _) (hybridSourceVotes_length_le cfg ed st)
  by_cases hb : cfg.confirmation_threshold ≤ (hybridSourceVotes cfg ed st).countP (· == "BUY")
  · obtain ⟨ha, hc⟩ := hybrid_emit_buy cfg md ed st h1 hb
    refine ⟨by rw [if_pos hb]; exact ha, by rw [if_pos hb]; exact hc, ?_⟩
    intro c hcv
    rw [hc] at hcv
    have : c = 7/10 + ((hybridSourceVotes cfg ed st).countP (· == "BUY") : ℚ) * (7/100) := by
      exact (Option.some.injEq _ _).mp hcv.symm
    rw [this]
    exact hcap _ hb3
  · have hs : cfg.confirmation_threshold ≤ (hybridSourceVotes cfg ed st).countP (· == "SELL") :=
      h2.resolve_left hb
    obtain ⟨ha, hc⟩ := hybrid_emit_sell cfg md ed st h1 hb hs
    refine ⟨by rw [if_neg hb]; exact ha, by rw [if_neg hb]; exact hc, ?_⟩
    intro c hcv
    rw [hc] at hcv
    have : c = 7/10 + ((hybridSourceVotes cfg ed st).countP (· == "SELL") : ℚ) * (7/100) := by
      exact (Option.some.injEq _ _).mp hcv.symm
    rw [this]
    exact hcap _ hs3

/-- Scenario A of the spec: BTC-$100k probability 0.68, on-chain inflows
$450M, bullish Fed news of impact 3.5. -/
def scenarioAEventData : EventData :=
  { polymarket := some [("btc_100k", { yes_probability := some (68/100) })]
    onchain := some { total_exchange_inflows := some 450000000
                      stablecoin_supply := some { change_24h_usd := some 500000000 }
                      total_defi_tvl := some 85000000000 }
    news_events := some { events := [{ source := "fed"
                                       title := "Fed signals dovish stance"
                                       impact_score := some (35/10)
                                       sentiment := some "bullish"
                                       matched_keywords := ["rate decision", "dovish"] }] } }

def scenarioAMarket : MarketData :=
  { timestamp := some 0, symbol := some "BTC", price := some 95000 }


theorem hybrid_fusion_action_and_confidence_witness :
    (({} : HybridConfig).confirmation_threshold ≤
      (hybridSourceVotes {} scenarioAEventData {}).length) ∧
    ((hybrid_generate_signal {} scenarioAMarket (some scenarioAEventData) {}).1.map
      Signal.action = some "BUY") ∧
    ((hybrid_generate_signal {} scenarioAMarket (some scenarioAEventData) {}).1.map
      Signal.confidence = some (91/100)) := by
  have h := hybrid_fusion_action_and_confidence ({} : HybridConfig) scenarioAMarket
    scenarioAEventData ({} : HybridState) (by with_unfolding_all decide)
    (Or.inl (by with_unfolding_all decide))
  have hbc : (hybridSourceVotes {} scenarioAEventData {}).countP (· == "BUY") = 3 := by
    with_unfolding_all decide
  refine ⟨by with_unfolding_all decide, ?_, ?_⟩
  · have h1 := h.1
    rwa [if_pos (by with_unfolding_all decide : ({} : HybridConfig).confirmation_threshold ≤
      (hybridSourceVotes {} scenarioAEventData {}).countP (· == "BUY"))] at h1
  · have h2 := h.2.1
    rw [if_pos (by with_unfolding_all decide : ({} : HybridConfig).confirmation_threshold ≤
      (hybridSourceVotes {} scenarioAEventData {}).countP (· == "BUY")), hbc] at h2
    rw [h2]
    norm_num

/-- C2: the hybrid fusion agent emits no signal exactly when fewer than
`confirmation_threshold` sources express a directional opinion, or when enough
sources vote but no single direction reaches the threshold (conflict). -/
theorem hybrid_no_signal_iff (cfg : HybridConfig) (md : MarketData)
    (ed : Option EventData) (st : HybridState)
    (h : 1 ≤ cfg.confirmation_threshold) :
    (hybrid_generate_signal cfg md ed st).1 = none ↔
      ((hybridVotesOpt cfg ed st).length < cfg.confirmation_threshold ∨
       (cfg.confirmation_threshold ≤ (hybridVotesOpt cfg ed st).length ∧
        (hybridVotesOpt cfg ed st).countP (· == "BUY") < cfg.confirmation_threshold ∧
        (hybridVotesOpt cfg ed st).countP (· == "SELL") < cfg.confirmation_threshold)) := by
  match ed with
  | none =>
    simp only [hybrid_generate_signal, hybridVotesOpt, List.length_nil]
    constructor
    · intro _
      exact Or.inl (by omega)
    · intro _
      trivial
  | some e =>
    rw [hybrid_generate_eq]
    have hV : hybridVotesOpt cfg (some e) st = hybridSourceVotes cfg e st := rfl
    rw [hV]
    by_cases hlen : (hybridSourceVotes cfg e st).length < cfg.confirmation_threshold
    · simp only [if_pos hlen]
      exact ⟨fun _ => Or.inl hlen, fun _ => trivial⟩
    · by_cases hb : cfg.confirmation_threshold ≤
        (hybridSourceVotes cfg e st).countP (· == "BUY")
      · simp only [if_neg hlen, if_pos hb]
        constructor
        · intro hcontra
          exact absurd hcontra (by simp)
        · intro hr
          rcases hr with hr | ⟨_, hb', _⟩
          · exact absurd hr hlen
          · omega
      · by_cases hs : cfg.confirmation_threshold ≤
          (hybridSourceVotes cfg e st).countP (· == "SELL")
        · simp only [if_neg hlen, if_neg hb, if_pos hs]
          constructor
          · intro hcontra
            exact absurd hcontra (by simp)
          · intro hr
            rcases hr with hr | ⟨_, _, hs'⟩
            · exact absurd hr hlen
            · omega
        · simp only [if_neg hlen, if_neg hb, if_neg hs]
          refine ⟨fun _ => Or.inr ⟨Nat.not_lt.mp hlen, Nat.not_le.mp hb, Nat.not_le.mp hs⟩,
            fun _ => trivial⟩

/-- Scenario B of the spec: Fed-hike probability 0.78 (SELL), on-chain inflows
$600M (BUY), no news events. -/
def scenarioBEventData : EventData :=
  { polymarket := some [("fed_hike", { yes_probability := some (78/100) })]
    onchain := some { total_exchange_inflows := some 600000000 }
    news_events := none }

theorem hybrid_no_signal_iff_witness :
    (1 ≤ ({} : HybridConfig).confirmation_threshold) ∧
    (hybridVotesOpt {} (some scenarioBEventData) {}).length =
      ({} : HybridConfig).confirmation_threshold ∧
    (hybrid_generate_signal {} scenarioAMarket (some scenarioBEventData) {}).1 = none := by
  refine ⟨by decide, by with_unfolding_all decide, ?_⟩
  exact (hybrid_no_signal_iff {} scenarioAMarket (some scenarioBEventData) {} (by decide)).mpr
    (Or.inr ⟨by with_unfolding_all decide, by with_unfolding_all decide,
             by with_unfolding_all decide⟩)

/-- C5: the strict hybrid agent's evaluation is exactly the ordinary hybrid
fusion policy run with confirmation threshold 3 (same thresholds otherwise):
two agreeing votes produce no signal, three agreeing votes produce one. -/
theorem strictHybrid_is_threshold_three (name : String) (md : MarketData)
    (ed : Option EventData) (st : HybridState) :
    (strictHybrid_generate_signal name md ed st =
      hybrid_generate_signal
        { name := name, confirmation_threshold := 3, polymarket_threshold := 65/100,
          onchain_threshold := 300000000, news_impact_threshold := 2 } md ed st) ∧
    ((hybridVotesOpt (strictHybridConfig name) ed st).length = 2 →
      (strictHybrid_generate_signal name md ed st).1 = none) ∧
    ((3 ≤ (hybridVotesOpt (strictHybridConfig name) ed st).countP (· == "BUY") ∨
      3 ≤ (hybridVotesOpt (strictHybridConfig name) ed st).countP (· == "SELL")) →
      (strictHybrid_generate_signal name md ed st).1.isSome = true) := by
  refine ⟨rfl, ?_, ?_⟩
  · intro hlen
    match ed with
    | none => rfl
    | some e =>
      have hlt : (hybridSourceVotes (strictHybridConfig name) e st).length <
          (strictHybridConfig name).confirmation_threshold := by
        have : (hybridSourceVotes (strictHybridConfig name) e st).length = 2 := hlen
        rw [this]
        show (2:ℕ) < 3
        norm_num
      show (hybrid_generate_signal (strictHybridConfig name) md (some e) st).1 = none
      rw [hybrid_generate_eq]
      simp only [if_pos hlt]
  · intro hv
    match ed with
    | none =>
      exfalso
      rcases hv with hv | hv <;> simp [hybridVotesOpt, List.countP_nil] at hv
    | some e =>
      have hle : ∀ p : String → Bool,
          (hybridSourceVotes (strictHybridConfig name) e st).countP p ≤
          (hybridSourceVotes (strictHybridConfig name) e st).length :=
        fun p => List.countP_le_length p
      show (hybrid_generate_signal (strictHybridConfig name) md (some e) st).1.isSome = true
      rcases hv with hv | hv
      · have h1 : (strictHybridConfig name).confirmation_threshold ≤
            (hybridSourceVotes (strictHybridConfig name) e st).length :=
          le_trans hv (hle _)
        obtain ⟨ha, _⟩ := hybrid_emit_buy (strictHybridConfig name) md e st h1 hv
        cases hx : (hybrid_generate_signal (strictHybridConfig name) md (some e) st).1 with
        | none => rw [hx] at ha; simp at ha
        | some s => rfl
      · have h1 : (strictHybridConfig name).confirmation_threshold ≤
            (hybridSourceVotes (strictHybridConfig name) e st).length :=
          le_trans hv (hle _)
        by_cases hb : (strictHybridConfig name).confirmation_threshold ≤
            (hybridSourceVotes (strictHybridConfig name) e st).countP (· == "BUY")
        · obtain ⟨ha, _⟩ := hybrid_emit_buy (strictHybridConfig name) md e st h1 hb
          cases hx : (hybrid_generate_signal (strictHybridConfig name) md (some e) st).1 with
          | none => rw [hx] at ha; simp at ha
          | some s => rfl
        · obtain ⟨ha, _⟩ := hybrid_emit_sell (strictHybridConfig name) md e st h1 hb hv
          cases hx : (hybrid_generate_signal (strictHybridConfig name) md (some e) st).1 with
          | none => rw [hx] at ha; simp at ha
          | some s => rfl

theorem strictHybrid_is_threshold_three_witness :
    ((hybridVotesOpt (strictHybridConfig "StrictHybridAgent") (some scenarioAEventData)
      {}).countP (· == "BUY") = 3) ∧
    ((strictHybrid_generate_signal "StrictHybridAgent" scenarioAMarket
      (some scenarioAEventData) {}).1.isSome = true) := by
  refine ⟨by with_unfolding_all decide, ?_⟩
  exact (strictHybrid_is_threshold_three "StrictHybridAgent" scenarioAMarket
    (some scenarioAEventData) {}).2.2 (Or.inl (by with_unfolding_all decide))

/-- C3: a malformed snapshot (missing price) indeed yields no signal, and the
trend follower's success path is reached on its 30th price — but the `Signal`
constructor call made there passes a `price` keyword that the `Signal`
dataclass does not declare, so in Python the success path raises `TypeError`
instead of returning the signal: the code contradicts the no-exception
contract. -/
theorem signal_constructor_price_kwarg_bug :
    ((trendFollower_generate_signal {} {} ⟨List.replicate 29 100⟩).1 = none) ∧
    ((trendFollower_generate_signal {} { price := some 100 }
        ⟨List.replicate 29 (100:ℚ)⟩).1.isSome = true) ∧
    (pyDataclassCallRaisesTypeError signalDataclassFields agentSignalCallKwargs = true) := by
  refine ⟨rfl, by with_unfolding_all decide, by decide⟩

/-- C7: each indicator agent emits nothing until its price history holds at
least the longer configured period of prices (the slow period for the trend
follower, given fast ≤ slow; the single period for mean reversion); once it
does, the trend agent acts BUY when the fast mean exceeds the slow mean and
SELL when it is below, with confidence `min(0.5 + gap/slow_ma, 0.95)`, never
above 0.95. -/
theorem indicator_min_window_and_trend_rule (cfgT : TrendConfig) (cfgM : MeanRevConfig)
    (hfs : cfgT.fast_period ≤ cfgT.slow_period) :
    (∀ md (st : PriceHistoryState), st.price_history.length + 1 < cfgT.slow_period →
      (trendFollower_generate_signal cfgT md st).1 = none) ∧
    (∀ (std : List ℚ → ℚ) md (st : PriceHistoryState),
      st.price_history.length + 1 < cfgM.period →
      (meanReversion_generate_signal std cfgM md st).1 = none) ∧
    (∀ md (st : PriceHistoryState) (p : ℚ), md.price = some p →
      cfgT.slow_period ≤ st.price_history.length + 1 →
      ((trendSlowMA cfgT (st.price_history ++ [p]) < trendFastMA cfgT (st.price_history ++ [p]) →
        (trendFollower_generate_signal cfgT md st).1.map Signal.action = some "BUY" ∧
        (trendFollower_generate_signal cfgT md st).1.map Signal.confidence =
          some (min (1/2 + (trendFastMA cfgT (st.price_history ++ [p]) -
            trendSlowMA cfgT (st.price_history ++ [p])) /
            trendSlowMA cfgT (st.price_history ++ [p])) (95/100))) ∧
       (trendFastMA cfgT (st.price_history ++ [p]) < trendSlowMA cfgT (st.price_history ++ [p]) →
        (trendFollower_generate_signal cfgT md st).1.map Signal.action = some "SELL" ∧
        (trendFollower_generate_signal cfgT md st).1.map Signal.confidence =
          some (min (1/2 + (trendSlowMA cfgT (st.price_history ++ [p]) -
            trendFastMA cfgT (st.price_history ++ [p])) /
            trendSlowMA cfgT (st.price_history ++ [p])) (95/100))) ∧
       (∀ c : ℚ, (trendFollower_generate_signal cfgT md st).1.map Signal.confidence = some c →
        c ≤ 95/100))) := by
  refine ⟨?_, ?_, ?_⟩
  · intro md st hlen
    match hp : md.price with
    | none => simp [trendFollower_generate_signal, hp]
    | some p =>
      simp [trendFollower_generate_signal, hp, List.length_append, hlen]
  · intro std md st hlen
    match hp : md.price with
    | none => simp [meanReversion_generate_signal, hp]
    | some p =>
      simp [meanReversion_generate_signal, hp, List.length_append, hlen]
  · intro md st p hp hlen
    have hnlt : ¬ (st.price_history.length + 1 < cfgT.slow_period) := by omega
    refine ⟨?_, ?_, ?_⟩
    · intro hbuy
      constructor <;>
        simp [trendFollower_generate_signal, hp, List.length_append, hnlt, hbuy]
    · intro hsell
      have hnb : ¬ (trendSlowMA cfgT (st.price_history ++ [p]) <
          trendFastMA cfgT (st.price_history ++ [p])) := not_lt.mpr (le_of_lt hsell)
      constructor <;>
        simp [trendFollower_generate_signal, hp, List.length_append, hnlt, hnb, hsell]
    · intro c hc
      by_cases hbuy : trendSlowMA cfgT (st.price_history ++ [p]) <
          trendFastMA cfgT (st.price_history ++ [p])
      · simp [trendFollower_generate_signal, hp, List.length_append, hnlt, hbuy] at hc
        rw [← hc]
        exact min_le_right _ _
      · by_cases hsell : trendFastMA cfgT (st.price_history ++ [p]) <
            trendSlowMA cfgT (st.price_history ++ [p])
        · simp [trendFollower_generate_signal, hp, List.length_append, hnlt, hbuy, hsell] at hc
          rw [← hc]
          exact min_le_right _ _
        · simp [trendFollower_generate_signal, hp, List.length_append, hnlt, hbuy, hsell] at hc
          rw [← hc]
          norm_num

theorem indicator_min_window_and_trend_rule_witness :
    (({ fast_period := 1, slow_period := 2 } : TrendConfig).fast_period ≤
      ({ fast_period := 1, slow_period := 2 } : TrendConfig).slow_period) ∧
    ((trendFollower_generate_signal { fast_period := 1, slow_period := 2 }
      { price := some 30 } ⟨[10]⟩).1.map Signal.action = some "BUY") ∧
    ((trendFollower_generate_signal { fast_period := 1, slow_period := 2 }
      { price := some 30 } ⟨[10]⟩).1.map Signal.confidence = some (95/100)) := by
  have h := (indicator_min_window_and_trend_rule
    ({ fast_period := 1, slow_period := 2 } : TrendConfig) {} (by decide)).2.2
    { price := some 30 } ⟨[10]⟩ 30 rfl (by decide)
  have hbuy : trendSlowMA { fast_period := 1, slow_period := 2 } ([10] ++ [(30:ℚ)]) <
      trendFastMA { fast_period := 1, slow_period := 2 } ([10] ++ [(30:ℚ)]) := by
    with_unfolding_all decide
  obtain ⟨ha, hc⟩ := h.1 hbuy
  refine ⟨by decide, ha, ?_⟩
  rw [hc]
  have : min ((1:ℚ)/2 + (trendFastMA { fast_period := 1, slow_period := 2 } ([10] ++ [(30:ℚ)]) -
      trendSlowMA { fast_period := 1, slow_period := 2 } ([10] ++ [(30:ℚ)])) /
      trendSlowMA { fast_period := 1, slow_period := 2 } ([10] ++ [(30:ℚ)])) (95/100) =
      95/100 := by
    with_unfolding_all decide
  rw [this]

/-- Event snapshot carrying only a news-event list. -/
def newsOnly (l : List NewsEvent) : EventData :=
  { news_events := some { events := l } }

/-- C6: feeding the identical event (same source and truncated title) to a
single-source news agent in two successive evaluations produces a signal only
on the first occurrence — the second evaluation yields no signal.  Stated for
`NewsAgent`, `FedNewsAgent` and `SECAgent`. -/
theorem news_agents_dedup_idempotent :
    (∀ (cfg : NewsAgentConfig) (md md' : MarketData) (e e' : NewsEvent)
      (st : NewsAgentState) (sig : Signal),
      eventId e' = eventId e →
      (newsAgent_generate_signal cfg md (some (newsOnly [e])) st).1 = some sig →
      (newsAgent_generate_signal cfg md' (some (newsOnly [e']))
        (newsAgent_generate_signal cfg md (some (newsOnly [e])) st).2).1 = none) ∧
    (∀ (name : String) (md md' : MarketData) (e e' : NewsEvent)
      (st : List String) (sig : Signal),
      e'.title.take 50 = e.title.take 50 →
      (fedNewsAgent_generate_signal name md (some (newsOnly [e])) st).1 = some sig →
      (fedNewsAgent_generate_signal name md' (some (newsOnly [e']))
        (fedNewsAgent_generate_signal name md (some (newsOnly [e])) st).2).1 = none) ∧
    (∀ (name : String) (md md' : MarketData) (e e' : NewsEvent)
      (st : List String) (sig : Signal),
      e'.title.take 50 = e.title.take 50 →
      (secAgent_generate_signal name md (some (newsOnly [e])) st).1 = some sig →
      (secAgent_generate_signal name md' (some (newsOnly [e']))
        (secAgent_generate_signal name md (some (newsOnly [e])) st).2).1 = none) := by
  refine ⟨?_, ?_, ?_⟩
  · intro cfg md md' e e' st sig heq hsig
    by_cases hseen : eventId e ∈ st.seen_events
    · exfalso
      simp [newsAgent_generate_signal, newsOnly, newsScanList, scanStep, hseen] at hsig
    · by_cases himp : ((0:ℚ) < boostedImpact cfg.fed_multiplier e ∧
        cfg.impact_threshold ≤ boostedImpact cfg.fed_multiplier e)
      · have hstate : (newsAgent_generate_signal cfg md (some (newsOnly [e])) st).2 =
            ⟨eventId e :: st.seen_events⟩ := by
          cases hact : newsAgentAction e (boostedImpact cfg.fed_multiplier e) <;>
            simp [newsAgent_generate_signal, newsOnly, newsScanList, scanStep,
              hseen, himp, hact]
        rw [hstate]
        simp [newsAgent_generate_signal, newsOnly, newsScanList, scanStep, heq]
      · exfalso
        simp [newsAgent_generate_signal, newsOnly, newsScanList, scanStep,
          hseen, himp] at hsig
  · intro name md md' e e' st sig heq hsig
    by_cases hfed : e.source = "fed"
    · by_cases hseen : ("fed_" ++ e.title.take 50) ∈ st
      · exfalso
        simp [fedNewsAgent_generate_signal, newsOnly, fedNewsLoop, hfed, hseen] at hsig
      · have hstate : (fedNewsAgent_generate_signal name md (some (newsOnly [e])) st).2 =
            ("fed_" ++ e.title.take 50) :: st := by
          simp [fedNewsAgent_generate_signal, newsOnly, fedNewsLoop, hfed, hseen]
          split <;> rfl
        rw [hstate]
        by_cases hfed' : e'.source = "fed"
        · simp [fedNewsAgent_generate_signal, newsOnly, fedNewsLoop, hfed', heq]
        · simp [fedNewsAgent_generate_signal, newsOnly, fedNewsLoop, hfed']
    · exfalso
      simp [fedNewsAgent_generate_signal, newsOnly, fedNewsLoop, hfed] at hsig
  · intro name md md' e e' st sig heq hsig
    by_cases hsec : e.source = "sec"
    · by_cases hseen : ("sec_" ++ e.title.take 50) ∈ st
      · exfalso
        simp [secAgent_generate_signal, newsOnly, secLoop, hsec, hseen] at hsig
      · have hstate : (secAgent_generate_signal name md (some (newsOnly [e])) st).2 =
            ("sec_" ++ e.title.take 50) :: st := by
          simp [secAgent_generate_signal, newsOnly, secLoop, hsec, hseen]
          split <;> rfl
        rw [hstate]
        by_cases hsec' : e'.source = "sec"
        · simp [secAgent_generate_signal, newsOnly, secLoop, hsec', heq]
        · simp [secAgent_generate_signal, newsOnly, secLoop, hsec']
    · exfalso
      simp [secAgent_generate_signal, newsOnly, secLoop, hsec] at hsig

/-- The bullish Fed event of scenario A as a standalone event. -/
def fedDovishEvent : NewsEvent :=
  { source := "fed"
    title := "Fed signals dovish stance"
    impact_score := some (35/10)
    sentiment := some "bullish"
    matched_keywords := ["rate decision", "dovish"] }

theorem news_agents_dedup_idempotent_witness :
    (eventId fedDovishEvent = eventId fedDovishEvent) ∧
    ((newsAgent_generate_signal {} scenarioAMarket (some (newsOnly [fedDovishEvent]))
      ({} : NewsAgentState)).1 =
      some { timestamp := 0, symbol := "BTC", action := "BUY", confidence := 22/25,
             size := 100,
             reason := "FED event (impact: 3.5): \"Fed signals dovish stance...\" | Sentiment: bullish | Keywords: rate decision, dovish",
             agent_name := "NewsAgent" }) ∧
    ((newsAgent_generate_signal {} scenarioAMarket (some (newsOnly [fedDovishEvent]))
      (newsAgent_generate_signal {} scenarioAMarket (some (newsOnly [fedDovishEvent]))
        ({} : NewsAgentState)).2).1 = none) := by
  have h1 : (newsAgent_generate_signal {} scenarioAMarket (some (newsOnly [fedDovishEvent]))
      ({} : NewsAgentState)).1 =
      some { timestamp := 0, symbol := "BTC", action := "BUY", confidence := 22/25,
             size := 100,
             reason := "FED event (impact: 3.5): \"Fed signals dovish stance...\" | Sentiment: bullish | Keywords: rate decision, dovish",
             agent_name := "NewsAgent" } := by
    set_option maxRecDepth 4096 in with_unfolding_all decide
  exact ⟨rfl, h1, news_agents_dedup_idempotent.1 {} scenarioAMarket scenarioAMarket
    fedDovishEvent fedDovishEvent {} _ rfl h1⟩

/-- One scan step only grows the seen set. -/
theorem scanStep_seen_subset (θ fm : ℚ) (st : ScanState) (e : NewsEvent) :
    st.seen ⊆ (scanStep θ fm st e).seen := by
  unfold scanStep
  dsimp only
  split
  · exact fun x hx => hx
  · split
    · exact fun x hx => List.mem_cons_of_mem _ hx
    · exact fun x hx => hx

/-- The whole scan only grows the seen set. -/
theorem newsScan_seen_subset (θ fm : ℚ) (events : List NewsEvent) (st : ScanState) :
    st.seen ⊆ (events.foldl (scanStep θ fm) st).seen := by
  induction events generalizing st with
  | nil => exact fun x hx => hx
  | cons e rest ih =>
    exact fun x hx => ih (scanStep θ fm st e) (scanStep_seen_subset θ fm st e hx)

/-- If a scan step yields a best event, it is either the old best or the
current (previously unseen) event. -/
theorem scanStep_best_cases (θ fm : ℚ) (st : ScanState) (e : NewsEvent) (b : NewsEvent) :
    (scanStep θ fm st e).best = some b → st.best = some b ∨ (b = e ∧ eventId e ∉ st.seen) := by
  unfold scanStep
  dsimp only
  split
  next h => exact fun hb => Or.inl hb
  next h =>
    split
    next hc =>
      intro hbe
      have hbeq : e = b := by simpa using hbe
      exact Or.inr ⟨hbeq.symm, by simpa using h⟩
    next hc => exact fun hb => Or.inl hb

/-- Scan invariant: the initial seen set stays inside the accumulator's seen
set, and the running best event never comes from the initial seen set. -/
theorem newsScan_invariant (θ fm : ℚ) (S : List String) (events : List NewsEvent)
    (st : ScanState) (hS : S ⊆ st.seen)
    (hb : ∀ b : NewsEvent, st.best = some b → eventId b ∉ S) :
    S ⊆ (events.foldl (scanStep θ fm) st).seen ∧
    (∀ b : NewsEvent, (events.foldl (scanStep θ fm) st).best = some b → eventId b ∉ S) := by
  induction events generalizing st with
  | nil => exact ⟨hS, hb⟩
  | cons e rest ih =>
    refine ih (scanStep θ fm st e) (fun x hx => scanStep_seen_subset θ fm st e (hS hx)) ?_
    intro b hbe
    rcases scanStep_best_cases θ fm st e b hbe with hold | ⟨hbeq, hnot⟩
    · exact hb b hold
    · subst hbeq
      intro hmem
      exact hnot (hS hmem)

/-- C10: in the news agents' best-event scan, an event that passes the
threshold and beats the running best is added to the seen set immediately —
even when a later event in the same list displaces it as best and it yields
no signal; an event whose identity is in the seen set can never be selected
as best again, and every evaluation only grows the seen set. -/
theorem news_scan_displaced_event_suppressed (θ fm : ℚ) (seen : List String)
    (e1 e2 : NewsEvent)
    (h1 : eventId e1 ∉ seen) (h2 : eventId e2 ≠ eventId e1) (h3 : eventId e2 ∉ seen)
    (h4 : θ ≤ boostedImpact fm e1) (h5 : 0 < boostedImpact fm e1)
    (h6 : boostedImpact fm e1 < boostedImpact fm e2) :
    ((newsScanList θ fm seen [e1, e2]).best = some e2 ∧
     eventId e1 ∈ (newsScanList θ fm seen [e1, e2]).seen) ∧
    (∀ (seen' : List String) (L : List NewsEvent) (b : NewsEvent),
      eventId e1 ∈ seen' → (newsScanList θ fm seen' L).best = some b →
      eventId b ≠ eventId e1) ∧
    (∀ (cfg : NewsAgentConfig) (md : MarketData) (ed : Option EventData)
      (st : NewsAgentState),
      st.seen_events ⊆ ((newsAgent_generate_signal cfg md ed st).2).seen_events) := by
  refine ⟨?_, ?_, ?_⟩
  · have hstep1 : scanStep θ fm { best := none, bestScore := 0, seen := seen } e1 =
        { best := some e1, bestScore := boostedImpact fm e1, seen := eventId e1 :: seen } := by
      simp [scanStep, h1, h5, h4]
    have hnotmem : eventId e2 ∉ eventId e1 :: seen := by
      intro hmem
      rcases List.mem_cons.mp hmem with hx | hx
      · exact h2 hx
      · exact h3 hx
    have hstep2 : scanStep θ fm
        { best := some e1, bestScore := boostedImpact fm e1, seen := eventId e1 :: seen } e2 =
        { best := some e2, bestScore := boostedImpact fm e2,
          seen := eventId e2 :: eventId e1 :: seen } := by
      simp [scanStep, hnotmem, h6, le_of_lt (lt_of_le_of_lt h4 h6)]
    have hrun : newsScanList θ fm seen [e1, e2] =
        { best := some e2, bestScore := boostedImpact fm e2,
          seen := eventId e2 :: eventId e1 :: seen } := by
      unfold newsScanList
      simp only [List.foldl_cons, List.foldl_nil, hstep1, hstep2]
    rw [hrun]
    exact ⟨rfl, by simp⟩
  · intro seen' L b hmem hbest
    have hinv := newsScan_invariant θ fm seen' L
      { best := none, bestScore := 0, seen := seen' }
      (fun x hx => hx) (by intro b hb; cases hb)
    intro hbe
    have hres := hinv.2 b hbest
    rw [hbe] at hres
    exact hres hmem
  · intro cfg md ed st
    match ed with
    | none => exact fun x hx => hx
    | some ed =>
      match hne : ed.news_events with
      | none => simp [newsAgent_generate_signal, hne]
      | some news =>
        by_cases hemp : news.events.isEmpty
        · simp [newsAgent_generate_signal, hne, hemp]
        · have hsub : st.seen_events ⊆ (newsScanList cfg.impact_threshold
              cfg.fed_multiplier st.seen_events news.events).seen :=
            newsScan_seen_subset cfg.impact_threshold cfg.fed_multiplier news.events
              { best := none, bestScore := 0, seen := st.seen_events }
          cases hbest : (newsScanList cfg.impact_threshold cfg.fed_multiplier
            st.seen_events news.events).best with
          | none =>
            simp only [newsAgent_generate_signal, hne, hemp, hbest]
            simp [hbest]
            exact hsub
          | some best =>
            cases hact : newsAgentAction best (newsScanList cfg.impact_threshold
              cfg.fed_multiplier st.seen_events news.events).bestScore with
            | none =>
              simp only [newsAgent_generate_signal, hne, hemp, hbest]
              simp [hbest, hact]
              exact hsub
            | some ac =>
              simp only [newsAgent_generate_signal, hne, hemp, hbest]
              simp [hbest, hact]
              exact hsub

def displacedEvent : NewsEvent :=
  { source := "sec", title := "Alpha ruling", impact_score := some (25/10),
    sentiment := some "bearish" }

def displacingEvent : NewsEvent :=
  { source := "treasury", title := "Beta statement", impact_score := some 3,
    sentiment := some "bullish" }

theorem news_scan_displaced_event_suppressed_witness :
    ((2:ℚ) ≤ boostedImpact 1 displacedEvent) ∧
    (boostedImpact 1 displacedEvent < boostedImpact 1 displacingEvent) ∧
    ((newsScanList 2 1 [] [displacedEvent, displacingEvent]).best = some displacingEvent) ∧
    (eventId displacedEvent ∈ (newsScanList 2 1 [] [displacedEvent, displacingEvent]).seen) := by
  set_option maxRecDepth 8192 in
  have h := (news_scan_displaced_event_suppressed 2 1 [] displacedEvent displacingEvent
    (by simp) (by with_unfolding_all decide) (by simp)
    (by with_unfolding_all decide) (by with_unfolding_all decide)
    (by with_unfolding_all decide)).1
  exact ⟨by with_unfolding_all decide, by with_unfolding_all decide, h.1, h.2⟩

/-- The exploitation score as a total formula (defined whenever the winner's
agent and `epoch_wins` entries exist): `0.5·confidence + 0.3·win rate +
0.2·(epoch wins / max(epoch, 1))`. -/
def exploitScore (m : BattleManager) (s : Signal) : ℚ :=
  s.confidence * (1/2) +
  ((findAgent m.agents s.agent_name).map AgentPerf.win_rate).getD 0 * (3/10) +
  (((List.lookup s.agent_name m.epoch_wins).getD 0 : ℚ) / max (m.current_epoch : ℚ) 1) * (1/5)

theorem selectionScore_eq_of_isSome (m : BattleManager) (s : Signal)
    (h : (selectionScore m s).isSome) :
    selectionScore m s = some (exploitScore m s) := by
  unfold selectionScore exploitScore at *
  cases hf : findAgent m.agents s.agent_name with
  | none => rw [hf] at h; simp at h
  | some agent =>
    cases hw : List.lookup s.agent_name m.epoch_wins with
    | none => rw [hf, hw] at h; simp at h
    | some w => simp

theorem pickMaxBySnd_fst_le : ∀ (xs : List (Signal × ℚ)) (b : Signal × ℚ),
    b.2 ≤ (pickMaxBySnd b xs).2
  | [], _ => le_refl _
  | x :: xs, b => by
    show b.2 ≤ (pickMaxBySnd (if b.2 < x.2 then x else b) xs).2
    by_cases h : b.2 < x.2
    · rw [if_pos h]
      exact le_of_lt (lt_of_lt_of_le h (pickMaxBySnd_fst_le xs x))
    · rw [if_neg h]
      exact pickMaxBySnd_fst_le xs b

theorem pickMaxBySnd_is_max : ∀ (xs : List (Signal × ℚ)) (b : Signal × ℚ),
    ∀ y ∈ b :: xs, y.2 ≤ (pickMaxBySnd b xs).2
  | [], b => by
    intro y hy
    rcases List.mem_cons.mp hy with h | h
    · subst h; exact le_refl _
    · cases h
  | x :: xs, b => by
    intro y hy
    show y.2 ≤ (pickMaxBySnd (if b.2 < x.2 then x else b) xs).2
    rcases List.mem_cons.mp hy with h | h
    · subst h
      by_cases hbx : y.2 < x.2
      · rw [if_pos hbx]
        exact le_of_lt (lt_of_lt_of_le hbx (pickMaxBySnd_fst_le xs x))
      · rw [if_neg hbx]
        exact pickMaxBySnd_fst_le xs y
    · rcases List.mem_cons.mp h with h | h
      · subst h
        by_cases hbx : b.2 < y.2
        · rw [if_pos hbx]
          exact pickMaxBySnd_fst_le xs y
        · rw [if_neg hbx]
          exact le_trans (le_of_not_lt hbx) (pickMaxBySnd_fst_le xs b)
      · exact pickMaxBySnd_is_max xs (if b.2 < x.2 then x else b) y
          (List.mem_cons_of_mem _ h)

theorem pickMaxBySnd_split : ∀ (xs : List (Signal × ℚ)) (b : Signal × ℚ),
    ∃ l₁ l₂, b :: xs = l₁ ++ (pickMaxBySnd b xs) :: l₂ ∧
      ∀ y ∈ l₁, y.2 < (pickMaxBySnd b xs).2
  | [], b => ⟨[], [], rfl, by simp⟩
  | x :: xs, b => by
    have hgoal : pickMaxBySnd b (x :: xs) = pickMaxBySnd (if b.2 < x.2 then x else b) xs := rfl
    rw [hgoal]
    by_cases hbx : b.2 < x.2
    · rw [if_pos hbx]
      obtain ⟨l₁, l₂, heq, hlt⟩ := pickMaxBySnd_split xs x
      refine ⟨b :: l₁, l₂, by rw [List.cons_append, ← heq], ?_⟩
      intro y hy
      rcases List.mem_cons.mp hy with h | h
      · subst h
        exact lt_of_lt_of_le hbx (pickMaxBySnd_fst_le xs x)
      · exact hlt y h
    · rw [if_neg hbx]
      obtain ⟨l₁, l₂, heq, hlt⟩ := pickMaxBySnd_split xs b
      cases l₁ with
      | nil =>
        simp only [List.nil_append] at heq
        have hb : b = pickMaxBySnd b xs := (List.cons_eq_cons.mp heq).1
        refine ⟨[], x :: xs, ?_, by simp⟩
        rw [List.nil_append, ← hb]
      | cons c l₁ =>
        simp only [List.cons_append, List.cons_eq_cons] at heq
        obtain ⟨hcb, hxs⟩ := heq
        refine ⟨b :: x :: l₁, l₂, ?_, ?_⟩
        · rw [List.cons_append, List.cons_append, ← hxs]
        · intro y hy
          have hcpick : c.2 < (pickMaxBySnd b xs).2 := hlt c (List.mem_cons_self _ _)
          have hbpick : b.2 < (pickMaxBySnd b xs).2 := by rwa [← hcb] at hcpick
          rcases List.mem_cons.mp hy with h | h
          · subst h; exact hbpick
          · rcases List.mem_cons.mp h with h | h
            · subst h
              exact lt_of_le_of_lt (le_of_not_lt hbx) hbpick
            · exact hlt y (List.mem_cons_of_mem _ h)

theorem scoredList_eq_map (m : BattleManager) :
    ∀ signals : List Signal, (∀ s ∈ signals, (selectionScore m s).isSome = true) →
      scoredList m signals = some (signals.map (fun s => (s, exploitScore m s)))
  | [], _ => rfl
  | s :: rest, h => by
    have hs : selectionScore m s = some (exploitScore m s) :=
      selectionScore_eq_of_isSome m s (h s (List.mem_cons_self _ _))
    have hrest := scoredList_eq_map m rest (fun x hx => h x (List.mem_cons_of_mem _ hx))
    simp [scoredList, hs, hrest]

theorem map_eq_append_cons {α β : Type} (f : α → β) :
    ∀ (l : List α) (l₁ : List β) (y : β) (l₂ : List β),
      l.map f = l₁ ++ y :: l₂ →
      ∃ m₁ a m₂, l = m₁ ++ a :: m₂ ∧ m₁.map f = l₁ ∧ f a = y ∧ m₂.map f = l₂
  | [], l₁, y, l₂, h => by simp at h
  | a :: l, [], y, l₂, h => by
    simp only [List.map_cons, List.nil_append, List.cons_eq_cons] at h
    exact ⟨[], a, l, rfl, rfl, h.1, h.2⟩
  | a :: l, c :: l₁, y, l₂, h => by
    simp only [List.map_cons, List.cons_append, List.cons_eq_cons] at h
    obtain ⟨hac, hl⟩ := h
    obtain ⟨m₁, b, m₂, he, hm1, hfb, hm2⟩ := map_eq_append_cons f l l₁ y l₂ hl
    exact ⟨a :: m₁, b, m₂, by rw [he, List.cons_append], by simp [hm1, hac], hfb, hm2⟩

/-- C4: in the exploitation branch, every candidate is scored by
`0.5·confidence + 0.3·win rate + 0.2·(epoch wins ÷ max(epochs, 1))`
(the `exploitScore` formula) and the returned winner is a candidate of maximum
score whose predecessors in the candidate sequence all score strictly lower —
the earliest maximum. -/
theorem selection_exploit_picks_earliest_max (m : BattleManager) (signals : List Signal)
    (hne : signals ≠ [])
    (hsc : ∀ s ∈ signals, (selectionScore m s).isSome = true) :
    ∃ w, select_winner_exploit m signals = some w ∧ w ∈ signals ∧
      (∀ s ∈ signals, exploitScore m s ≤ exploitScore m w) ∧
      (∃ l₁ l₂, signals = l₁ ++ w :: l₂ ∧
        ∀ s ∈ l₁, exploitScore m s < exploitScore m w) := by
  have hmap : scoredList m signals =
      some (signals.map (fun s => (s, exploitScore m s))) :=
    scoredList_eq_map m signals hsc
  cases signals with
  | nil => exact absurd rfl hne
  | cons s0 rest =>
    have hmap' : scoredList m (s0 :: rest) =
        some ((s0, exploitScore m s0) :: rest.map (fun s => (s, exploitScore m s))) := by
      simpa using hmap
    have hsel : select_winner_exploit m (s0 :: rest) =
        some (pickMaxBySnd (s0, exploitScore m s0)
          (rest.map (fun s => (s, exploitScore m s)))).1 := by
      unfold select_winner_exploit
      rw [hmap']
    obtain ⟨l₁, l₂, heq, hlt⟩ := pickMaxBySnd_split
      (rest.map (fun s => (s, exploitScore m s))) (s0, exploitScore m s0)
    have hpairs : (s0 :: rest).map (fun s => (s, exploitScore m s)) =
        l₁ ++ (pickMaxBySnd (s0, exploitScore m s0)
          (rest.map (fun s => (s, exploitScore m s)))) :: l₂ := by
      simpa using heq
    obtain ⟨m₁, a, m₂, hle, hm1, hfa, hm2⟩ :=
      map_eq_append_cons (fun s => (s, exploitScore m s)) (s0 :: rest) l₁ _ l₂ hpairs
    have ha1 : a = (pickMaxBySnd (s0, exploitScore m s0)
        (rest.map (fun s => (s, exploitScore m s)))).1 := by
      rw [← hfa]
    have ha2 : exploitScore m a = (pickMaxBySnd (s0, exploitScore m s0)
        (rest.map (fun s => (s, exploitScore m s)))).2 := by
      rw [← hfa]
    refine ⟨_, hsel, ?_, ?_, ?_⟩
    · rw [← ha1, hle]
      exact List.mem_append.mpr (Or.inr (List.mem_cons_self _ _))
    · intro s hs
      have hgs : (s, exploitScore m s) ∈ (s0, exploitScore m s0) ::
          rest.map (fun s => (s, exploitScore m s)) := by
        have : (s, exploitScore m s) ∈ (s0 :: rest).map (fun s => (s, exploitScore m s)) :=
          List.mem_map_of_mem _ hs
        simpa using this
      have := pickMaxBySnd_is_max
        (rest.map (fun s => (s, exploitScore m s))) (s0, exploitScore m s0)
        (s, exploitScore m s) hgs
      calc exploitScore m s ≤ _ := this
        _ = exploitScore m _ := by rw [← ha1, ← ha2]
    · refine ⟨m₁, m₂, by rw [hle, ha1], ?_⟩
      intro s hs
      have hgs : (s, exploitScore m s) ∈ l₁ := by
        rw [← hm1]
        exact List.mem_map_of_mem _ hs
      have := hlt (s, exploitScore m s) hgs
      calc exploitScore m s < _ := this
        _ = exploitScore m _ := by rw [← ha1, ← ha2]

def exampleManager : BattleManager :=
  { agents := [{ name := "A", win_rate := 1/2 }, { name := "B", win_rate := 1/4 }]
    current_epoch := 4
    epoch_wins := [("A", 2), ("B", 1)] }

def exampleSignalA : Signal :=
  { timestamp := 0, symbol := "BTC", action := "BUY", confidence := 3/5, size := 100,
    reason := "r1", agent_name := "A" }

def exampleSignalB : Signal :=
  { timestamp := 0, symbol := "BTC", action := "SELL", confidence := 4/5, size := 100,
    reason := "r2", agent_name := "B" }

theorem selection_exploit_picks_earliest_max_witness :
    (([exampleSignalA, exampleSignalB] : List Signal) ≠ []) ∧
    (∀ s ∈ [exampleSignalA, exampleSignalB],
      (selectionScore exampleManager s).isSome = true) ∧
    (∃ w, select_winner_exploit exampleManager [exampleSignalA, exampleSignalB] = some w ∧
      w ∈ [exampleSignalA, exampleSignalB] ∧
      (∀ s ∈ [exampleSignalA, exampleSignalB],
        exploitScore exampleManager s ≤ exploitScore exampleManager w) ∧
      (∃ l₁ l₂, [exampleSignalA, exampleSignalB] = l₁ ++ w :: l₂ ∧
        ∀ s ∈ l₁, exploitScore exampleManager s < exploitScore exampleManager w)) := by
  have hsc : ∀ s ∈ [exampleSignalA, exampleSignalB],
      (selectionScore exampleManager s).isSome = true := by
    with_unfolding_all decide
  exact ⟨by simp, hsc, selection_exploit_picks_earliest_max exampleManager
    [exampleSignalA, exampleSignalB] (by simp) hsc⟩

theorem bumpWins_sum_le (nm : String) :
    ∀ l : List (String × Nat), ((bumpWins l nm).map Prod.snd).sum ≤ (l.map Prod.snd).sum + 1
  | [] => by simp [bumpWins]
  | (k, v) :: rest => by
    by_cases h : k == nm
    · simp [bumpWins, h]
      omega
    · have := bumpWins_sum_le nm rest
      simp [bumpWins, h]
      omega

theorem lookup_le_sum (nm : String) :
    ∀ (l : List (String × Nat)) (w : Nat), List.lookup nm l = some w →
      w ≤ (l.map Prod.snd).sum
  | [], w, h => by simp [List.lookup] at h
  | (k, v) :: rest, w, h => by
    by_cases hk : nm == k
    · simp only [List.lookup, hk, if_true] at h
      simp only [Option.some.injEq] at h
      subst h
      simp only [List.map_cons, List.sum_cons]
      omega
    · simp only [List.lookup, hk, if_false] at h
      have := lookup_le_sum nm rest w h
      simp only [List.map_cons, List.sum_cons]
      omega

theorem run_battle_step (m : BattleManager) (r : RoundInput) :
    ((run_battle m r).1).current_epoch = m.current_epoch + 1 ∧
    winsSum (run_battle m r).1 ≤ winsSum m + 1 := by
  unfold run_battle
  by_cases hemp : ((r.agentOutputs.filterMap id).filter (fun s => !(s.action == "HOLD"))).isEmpty
  · simp [hemp, winsSum]
  · simp only [hemp, if_false]
    cases hsel : select_winner { m with current_epoch := m.current_epoch + 1 }
      ((r.agentOutputs.filterMap id).filter (fun s => !(s.action == "HOLD")))
      r.explore r.ridx with
    | none => simp [winsSum]
    | some w =>
      simp only []
      refine ⟨rfl, ?_⟩
      exact bumpWins_sum_le w.agent_name m.epoch_wins

theorem run_battles_invariant :
    ∀ (rs : List RoundInput) (m : BattleManager), winsSum m ≤ m.current_epoch →
      winsSum (run_battles m rs) ≤ (run_battles m rs).current_epoch ∧
      (run_battles m rs).current_epoch = m.current_epoch + rs.length
  | [], m, h => ⟨h, rfl⟩
  | r :: rs, m, h => by
    have hstep := run_battle_step m r
    have hnext : winsSum (run_battle m r).1 ≤ ((run_battle m r).1).current_epoch := by
      omega
    have hrec := run_battles_invariant rs (run_battle m r).1 hnext
    refine ⟨hrec.1, ?_⟩
    have : run_battles m (r :: rs) = run_battles (run_battle m r).1 rs := rfl
    rw [this, hrec.2, hstep.1, List.length_cons]
    omega

theorem initManager_winsSum (agents : List AgentPerf) :
    winsSum (initManager agents) = 0 := by
  unfold winsSum initManager
  induction agents with
  | nil => rfl
  | cons a rest ih => simpa using ih

/-- C9: from a fresh battle manager, after any round sequence the sum of all
epoch-win counters is at most the epoch counter, the epoch counter equals the
number of rounds run (one increment per round, empty rounds included), and the
epoch-win bonus `wins / max(epoch, 1)` — with either the current or the next
(incremented) epoch in the denominator — always lies in [0, 1]. -/
theorem battle_epoch_wins_invariant (agents : List AgentPerf) (rs : List RoundInput) :
    (winsSum (run_battles (initManager agents) rs) ≤
      (run_battles (initManager agents) rs).current_epoch) ∧
    ((run_battles (initManager agents) rs).current_epoch = rs.length) ∧
    (∀ nm : String,
      0 ≤ (((List.lookup nm (run_battles (initManager agents) rs).epoch_wins).getD 0 : ℚ) /
        max ((run_battles (initManager agents) rs).current_epoch : ℚ) 1) ∧
      (((List.lookup nm (run_battles (initManager agents) rs).epoch_wins).getD 0 : ℚ) /
        max ((run_battles (initManager agents) rs).current_epoch : ℚ) 1) ≤ 1 ∧
      (((List.lookup nm (run_battles (initManager agents) rs).epoch_wins).getD 0 : ℚ) /
        max (((run_battles (initManager agents) rs).current_epoch : ℚ) + 1) 1) ≤ 1) := by
  have hinv := run_battles_invariant rs (initManager agents)
    (by rw [initManager_winsSum]; exact Nat.zero_le _)
  have hinit : (initManager agents).current_epoch = 0 := rfl
  refine ⟨hinv.1, by rw [hinv.2, hinit, Nat.zero_add], ?_⟩
  intro nm
  have hW : (List.lookup nm (run_battles (initManager agents) rs).epoch_wins).getD 0 ≤
      (run_battles (initManager agents) rs).current_epoch := by
    cases hl : List.lookup nm (run_battles (initManager agents) rs).epoch_wins with
    | none => simp
    | some w =>
      have := lookup_le_sum nm (run_battles (initManager agents) rs).epoch_wins w hl
      have h2 := hinv.1
      simp only [Option.getD_some]
      exact le_trans this h2
  have hWq : (((List.lookup nm (run_battles (initManager agents) rs).epoch_wins).getD 0 : ℕ) : ℚ) ≤
      ((run_battles (initManager agents) rs).current_epoch : ℚ) := by
    exact_mod_cast hW
  have hden1 : (0:ℚ) < max ((run_battles (initManager agents) rs).current_epoch : ℚ) 1 :=
    lt_of_lt_of_le one_pos (le_max_right _ _)
  have hden2 : (0:ℚ) < max (((run_battles (initManager agents) rs).current_epoch : ℚ) + 1) 1 :=
    lt_of_lt_of_le one_pos (le_max_right _ _)
  refine ⟨div_nonneg (by positivity) (le_of_lt hden1), ?_, ?_⟩
  · rw [div_le_one hden1]
    exact le_trans hWq (le_max_left _ _)
  · rw [div_le_one hden2]
    exact le_trans hWq (le_trans (by linarith) (le_max_left _ _))

def exampleWinnerStats : AgentStats :=
  { pnl := 3133725/100, win_rate := 373/1000, total_trades := 424242, epoch_wins := 987654 }

def exampleSignalTrend : Signal :=
  { timestamp := 0, symbol := "SPY", action := "BUY", confidence := 4/5, size := 100,
    reason := "MA crossover", agent_name := "Trend Follower" }

def exampleMarketFifty : MarketData := { price := some 50000 }

/-- C8 counterexample: at a concrete round, the deterministic fallback
explanation contains the winner's name, confidence and reason — but no
rendering of the winning agent's pnl, win rate, trade count or epoch wins
(the performance-summary lines appear only in the external-explainer
prompt): the claim that it contains a performance summary is false. -/
theorem fallback_explanation_missing_perf_summary :
    (generate_rule_based_explanation exampleSignalTrend [exampleSignalTrend]
        exampleMarketFifty =
      "The Trend Follower agent secured victory with 80% confidence. Strategy: MA crossover. Market conditions: Price $50000.00, competing against 0 other strategies. Expected outcome: BUY 100 shares.") ∧
    (strContains "Trend Follower" (generate_rule_based_explanation exampleSignalTrend
      [exampleSignalTrend] exampleMarketFifty) = true ∧
     strContains "80%" (generate_rule_based_explanation exampleSignalTrend
      [exampleSignalTrend] exampleMarketFifty) = true ∧
     strContains "MA crossover" (generate_rule_based_explanation exampleSignalTrend
      [exampleSignalTrend] exampleMarketFifty) = true) ∧
    (strContains (fmtFixed 2 exampleWinnerStats.pnl)
      (generate_rule_based_explanation exampleSignalTrend [exampleSignalTrend]
        exampleMarketFifty) = false ∧
     strContains (fmtPercent1 exampleWinnerStats.win_rate)
      (generate_rule_based_explanation exampleSignalTrend [exampleSignalTrend]
        exampleMarketFifty) = false ∧
     strContains (toString exampleWinnerStats.total_trades)
      (generate_rule_based_explanation exampleSignalTrend [exampleSignalTrend]
        exampleMarketFifty) = false ∧
     strContains (toString exampleWinnerStats.epoch_wins)
      (generate_rule_based_explanation exampleSignalTrend [exampleSignalTrend]
        exampleMarketFifty) = false) ∧
    (∀ line ∈ format_agent_history_lines exampleWinnerStats,
      strContains line (generate_rule_based_explanation exampleSignalTrend
        [exampleSignalTrend] exampleMarketFifty) = false) := by
  set_option maxRecDepth 16384 in with_unfolding_all decide

/-- C8 amended: for every winner, candidate list and market snapshot, the
deterministic fallback explanation contains the winner's agent name, its
confidence rendered as a percentage, and its raw reason string (the
performance summary is not part of it — see the counterexample). -/
theorem fallback_explanation_contains_name_confidence_reason (w : Signal)
    (sigs : List Signal) (md : MarketData) :
    (∃ s t, s ++ w.agent_name.data ++ t =
      (generate_rule_based_explanation w sigs md).data) ∧
    (∃ s t, s ++ (fmtPercent0 w.confidence).data ++ t =
      (generate_rule_based_explanation w sigs md).data) ∧
    (∃ s t, s ++ w.reason.data ++ t =
      (generate_rule_based_explanation w sigs md).data) := by
  refine ⟨⟨"The ".data, (" agent secured victory with " ++ fmtPercent0 w.confidence ++
      " confidence. " ++ "Strategy: " ++ w.reason ++ ". " ++
      "Market conditions: Price $" ++ fmtFixed 2 (md.price.getD 0) ++ ", " ++
      "competing against " ++ toString ((sigs.length : ℤ) - 1) ++ " other strategies. " ++
      "Expected outcome: " ++ w.action ++ " " ++ fmtFixed 0 w.size ++ " shares.").data, ?_⟩,
    ⟨("The " ++ w.agent_name ++ " agent secured victory with ").data,
      (" confidence. " ++ "Strategy: " ++ w.reason ++ ". " ++
      "Market conditions: Price $" ++ fmtFixed 2 (md.price.getD 0) ++ ", " ++
      "competing against " ++ toString ((sigs.length : ℤ) - 1) ++ " other strategies. " ++
      "Expected outcome: " ++ w.action ++ " " ++ fmtFixed 0 w.size ++ " shares.").data, ?_⟩,
    ⟨("The " ++ w.agent_name ++ " agent secured victory with " ++
      fmtPercent0 w.confidence ++ " confidence. " ++ "Strategy: ").data,
      (". " ++ "Market conditions: Price $" ++ fmtFixed 2 (md.price.getD 0) ++ ", " ++
      "competing against " ++ toString ((sigs.length : ℤ) - 1) ++ " other strategies. " ++
      "Expected outcome: " ++ w.action ++ " " ++ fmtFixed 0 w.size ++ " shares.").data, ?_⟩⟩ <;>
  simp [generate_rule_based_explanation, String.data_append, List.append_assoc]
